import Mathlib

/-!
# Kiosk device agent: frame decoder, serial link and printer status classifier

A shallow embedding of `main.js` (production variant `kiosk-electron-app-main`
and development variant `kiosk-electron-app-main-dev`).

Conventions of the embedding:

* a JavaScript array of bytes is a `List Nat`; the serial chunks are Node
  `Buffer`s, so every element is below 256 (stated as a hypothesis where a
  property depends on it);
* a JavaScript string is a Lean `String`; `String.fromCharCode` maps each
  argument to the character with that code modulo 2^16;
* `null` versus a value is `Option`;
* a callback is a function from the state before to the state after, paired
  with what the callback emitted (a navigation, a report, a scheduled timer);
* the `data` handler of the serial port awaits the session query between its
  first statement and the rest, so it is two steps on the shared buffer,
  `onDataAppend` and `onDataResume`, and other `data` events may run between
  them; `onData` is the handler when none does.
-/

namespace Kiosk

/-! ## Frame decoder (`processBuffer`) -/

/-- Loop of `Array.prototype.indexOf`: position of the first element equal to
`b`, counting from `i`, or `-1`. -/
def indexOfFrom (b : Nat) : List Nat → Nat → Int
  | [], _ => -1
  | x :: xs, i => if x = b then (i : Int) else indexOfFrom b xs (i + 1)

/-- `Array.prototype.indexOf(b)`: first index holding `b`, or `-1`. -/
def arrayIndexOf (buffer : List Nat) (b : Nat) : Int :=
  indexOfFrom b buffer 0

/-- `Array.prototype.slice(start, stop)`: negative arguments count from the
end, both are clamped to the array, and an empty range gives `[]`. -/
def arraySlice (a : List Nat) (start stop : Int) : List Nat :=
  let len : Int := a.length
  let k : Int := if start < 0 then max (len + start) 0 else min start len
  let fin : Int := if stop < 0 then max (len + stop) 0 else min stop len
  (a.drop k.toNat).take (fin - k).toNat

/-- `String.fromCharCode(...codes)`: one UTF-16 unit per argument. -/
def fromCharCode (codes : List Nat) : String :=
  String.mk (codes.map (fun c => Char.ofNat (c % 65536)))

/-- `String.prototype.substr(start, len)` for non-negative arguments. -/
def substr (s : String) (start len : Nat) : String :=
  String.mk ((s.data.drop start).take len)

/-- `processBuffer` of `main.js` (identical in both variants). -/
def processBuffer (buffer : List Nat) : String :=
  let startIndex := arrayIndexOf buffer 0x02
  let endIndex := arrayIndexOf buffer 0x03
  if startIndex ≠ -1 ∧ endIndex ≠ -1 ∧ startIndex < endIndex then
    let cardData := arraySlice buffer (startIndex + 2) endIndex
    let cardData := cardData.filter (fun byte => byte != 82 && byte != 95)
    let cardNumber := fromCharCode cardData
    let cardNumber := if cardNumber.length > 8 then substr cardNumber 0 8 else cardNumber
    cardNumber
  else
    ""

/-- The window of the specification example. -/
def exampleWindow : List Nat :=
  [0x02, 0xFF, 0x52, 0x31, 0x32, 0x33, 0x34, 0x35, 0x36, 0x37, 0x38, 0x03]

/-! ## Serial data handler (`serialport.on("data", ...)`) -/

/-- The variables `buffer` and `lastCardNumber` of `createWindow`. -/
structure SerialState where
  buffer : List Nat
  lastCardNumber : Option String
  deriving DecidableEq, Repr

/-- The variable parts of the URL given to `mainWindow.loadURL` by the data
handler: the query parameters `rfCardNo` and `kioskId`. -/
structure Navigation where
  rfCardNo : String
  kioskId : String
  deriving DecidableEq, Repr

/-- What one run of the data handler did besides updating the state. -/
structure DataEffect where
  decoderCalled : Bool
  navigation : Option Navigation
  deriving DecidableEq, Repr

/-- The expression `!!token`, where `token` is the value of
`sessionStorage.getItem("token")` (`null` when absent or when the query
failed): a non-empty string is truthy. -/
def hasToken (token : Option String) : Bool :=
  match token with
  | none => false
  | some t => t != ""

/-- Initial values of `buffer` and `lastCardNumber`. -/
def initialSerial : SerialState :=
  { buffer := [], lastCardNumber := none }

/-- The first statement of the `data` handler, `buffer = [...buffer, ...data]`,
run when the chunk arrives. -/
def onDataAppend (st : SerialState) (data : List Nat) : SerialState :=
  { buffer := st.buffer ++ data, lastCardNumber := st.lastCardNumber }

/-- The `data` handler after its `await` (identical in both variants up to the
base URL and a log line): `token` is the answer of the session query, and
`buffer` and `lastCardNumber` are read as they are when the answer comes. -/
def onDataResume (kioskId : String) (st : SerialState) (token : Option String) :
    SerialState × DataEffect :=
  if st.buffer.length = 12 then
    let cardNumber := processBuffer st.buffer
    let isSameCard : Bool := some cardNumber == st.lastCardNumber
    let hasTok : Bool := hasToken token
    if !isSameCard || !hasTok then
      ({ buffer := [], lastCardNumber := some cardNumber },
        { decoderCalled := true, navigation := some { rfCardNo := cardNumber, kioskId := kioskId } })
    else
      ({ buffer := [], lastCardNumber := st.lastCardNumber },
        { decoderCalled := true, navigation := none })
  else
    (st, { decoderCalled := false, navigation := none })

/-- The `data` handler when no other `data` event runs during its `await`:
the append of the inbound chunk `data`, then at once the rest with the answer
`token` of the session query. -/
def onData (kioskId : String) (st : SerialState) (data : List Nat) (token : Option String) :
    SerialState × DataEffect :=
  onDataResume kioskId (onDataAppend st data) token

/-- What happens to the serial state: a chunk arrives and its handler runs up
to the `await`, or the oldest waiting handler gets its answer and runs on. -/
inductive SerialEvent where
  | arrive (data : List Nat)
  | resume (token : Option String)
  deriving DecidableEq, Repr

/-- A sequence of serial events, oldest first, from `waiting` handlers at their
`await`: every `resume` has a handler to run on. -/
def schedulable : Nat → List SerialEvent → Bool
  | _, [] => true
  | waiting, .arrive _ :: evs => schedulable (waiting + 1) evs
  | 0, .resume _ :: _ => false
  | waiting + 1, .resume _ :: evs => schedulable waiting evs

/-- The serial state after a sequence of serial events, oldest first, with what
each resumed handler did. -/
def serialRun (kioskId : String) : SerialState → List SerialEvent → SerialState × List DataEffect
  | st, [] => (st, [])
  | st, .arrive data :: evs => serialRun kioskId (onDataAppend st data) evs
  | st, .resume token :: evs =>
    let r := onDataResume kioskId st token
    let q := serialRun kioskId r.1 evs
    (q.1, r.2 :: q.2)

/-! ## Serial link: open, retry, give up -/

/-- The constant `MAX_RETRY`. -/
def MAX_RETRY : Nat := 500

/-- The variables `retryCount` and `bannerShown`. The window is taken to be
alive, and a failure of the script that draws the banner is not modelled. -/
structure LinkState where
  retryCount : Nat
  bannerShown : Bool
  deriving DecidableEq, Repr

/-- Initial values: `retryCount = 0`, `bannerShown = false`. -/
def initialLink : LinkState :=
  { retryCount := 0, bannerShown := false }

/-- `showBanner`: draws the banner unless one is shown already. -/
def showBanner (s : LinkState) : LinkState :=
  if s.bannerShown then s else { s with bannerShown := true }

/-- `hideBanner`: removes the banner when one is shown. -/
def hideBanner (s : LinkState) : LinkState :=
  if !s.bannerShown then s else { s with bannerShown := false }

/-- `retryOpen`: the second component tells whether `setTimeout` was called,
that is whether a further `openSerialPort` has been scheduled. -/
def retryOpen (s : LinkState) : LinkState × Bool :=
  if s.retryCount ≥ MAX_RETRY then
    (showBanner s, false)
  else
    ({ s with retryCount := s.retryCount + 1 }, true)

/-- The callback of `serialport.open`: `err` tells whether the open failed. -/
def onOpen (err : Bool) (s : LinkState) : LinkState × Bool :=
  if err then
    retryOpen (showBanner s)
  else
    ({ hideBanner s with retryCount := 0 }, false)

/-- The `close` handler. -/
def onClose (s : LinkState) : LinkState × Bool :=
  retryOpen (showBanner s)

/-- The `error` handler; `isOpen` is `serialport.isOpen` at that moment. -/
def onError (isOpen : Bool) (s : LinkState) : LinkState × Bool :=
  let s := showBanner s
  if !isOpen then retryOpen s else (s, false)

/-- The events that reach the link's callbacks. -/
inductive LinkEvent where
  | openSucceeded
  | openFailed
  | closed
  | error (isOpen : Bool)
  deriving DecidableEq, Repr

/-- One callback run. -/
def linkStep (s : LinkState) : LinkEvent → LinkState × Bool
  | .openSucceeded => onOpen false s
  | .openFailed => onOpen true s
  | .closed => onClose s
  | .error isOpen => onError isOpen s

/-- The link state after a sequence of events, oldest first. -/
def linkRun (s : LinkState) (evs : List LinkEvent) : LinkState :=
  evs.foldl (fun st ev => (linkStep st ev).1) s

/-- Whether the event is handled by a call of `retryOpen`. -/
def LinkEvent.callsRetryOpen : LinkEvent → Bool
  | .openSucceeded => false
  | .openFailed => true
  | .closed => true
  | .error isOpen => !isOpen

/-- Number of `retryOpen` calls since the last successful open, after the
events `evs` (oldest first) and `n` such calls before them. -/
def failuresSinceOpen (n : Nat) (evs : List LinkEvent) : Nat :=
  evs.foldl (fun k ev =>
    if ev = .openSucceeded then 0 else if ev.callsRetryOpen then k + 1 else k) n

/-- The link state after `k` consecutive failed opens. -/
def afterFailedOpens (s : LinkState) : Nat → LinkState
  | 0 => s
  | k + 1 => (onOpen true (afterFailedOpens s k)).1

/-- A run of `openSerialPort` in which every open fails: each pass is one call
of `serialport.open` whose callback reports an error; the timer set by
`retryOpen`, if any, starts the next pass. The result is the final state with
the number of `serialport.open` calls made, or `none` when `fuel` passes did
not reach the end. -/
def openAlwaysFailing : Nat → LinkState → Option (LinkState × Nat)
  | 0, _ => none
  | fuel + 1, s =>
    let r := onOpen true s
    if r.2 then
      (openAlwaysFailing fuel r.1).map (fun q => (q.1, q.2 + 1))
    else
      some (r.1, 1)

/-! ## Printer status classifier (`printerLoop`) -/

/-- The variables `errorCount`, `zeroCount` and `lastStatus` of the worker. -/
structure Classifier where
  errorCount : Nat
  zeroCount : Nat
  lastStatus : Option Int
  deriving DecidableEq, Repr

/-- Initial values: both counters `0`, `lastStatus = null`. -/
def initialClassifier : Classifier :=
  { errorCount := 0, zeroCount := 0, lastStatus := none }

/-- What the driver calls of one cycle gave: a status code, or an exception. -/
inductive PollOutcome where
  | status (code : Int)
  | driverFailure
  deriving DecidableEq, Repr

/-- One cycle of `printerLoop`, production variant. The second component is the
argument of `sendPrinterStatus` when it was called. An exception of the driver
is thrown before any variable is written. -/
def printerLoop (st : Classifier) : PollOutcome → Classifier × Option Int
  | .driverFailure => (st, none)
  | .status status =>
    if status = -101 then
      let errorCount := st.errorCount + 1
      let zeroCount := 0
      if errorCount ≥ 5 then
        ({ errorCount := 0, zeroCount := zeroCount, lastStatus := some status }, some status)
      else
        ({ errorCount := errorCount, zeroCount := zeroCount, lastStatus := some status }, none)
    else if status = 0 then
      let zeroCount := st.zeroCount + 1
      let errorCount := 0
      if some status ≠ st.lastStatus ∨ zeroCount ≤ 5 then
        ({ errorCount := errorCount, zeroCount := zeroCount, lastStatus := some status }, some status)
      else
        ({ errorCount := errorCount, zeroCount := zeroCount, lastStatus := some status }, none)
    else
      let errorCount := 0
      let zeroCount := 0
      if some status ≠ st.lastStatus then
        ({ errorCount := errorCount, zeroCount := zeroCount, lastStatus := some status }, some status)
      else
        ({ errorCount := errorCount, zeroCount := zeroCount, lastStatus := some status }, none)

/-- One cycle of `printerLoop`, development variant: the zero branch has the
inner check `zeroCount <= 5`. -/
def printerLoopDev (st : Classifier) : PollOutcome → Classifier × Option Int
  | .driverFailure => (st, none)
  | .status status =>
    if status = -101 then
      let errorCount := st.errorCount + 1
      let zeroCount := 0
      if errorCount ≥ 5 then
        ({ errorCount := 0, zeroCount := zeroCount, lastStatus := some status }, some status)
      else
        ({ errorCount := errorCount, zeroCount := zeroCount, lastStatus := some status }, none)
    else if status = 0 then
      let zeroCount := st.zeroCount + 1
      let errorCount := 0
      if some status ≠ st.lastStatus ∨ zeroCount ≤ 5 then
        if zeroCount ≤ 5 then
          ({ errorCount := errorCount, zeroCount := zeroCount, lastStatus := some status }, some status)
        else
          ({ errorCount := errorCount, zeroCount := zeroCount, lastStatus := some status }, none)
      else
        ({ errorCount := errorCount, zeroCount := zeroCount, lastStatus := some status }, none)
    else
      let errorCount := 0
      let zeroCount := 0
      if some status ≠ st.lastStatus then
        ({ errorCount := errorCount, zeroCount := zeroCount, lastStatus := some status }, some status)
      else
        ({ errorCount := errorCount, zeroCount := zeroCount, lastStatus := some status }, none)

/-- Consecutive cycles: the final state and, per sample, the report sent. -/
def feed (step : Classifier → PollOutcome → Classifier × Option Int) :
    Classifier → List PollOutcome → Classifier × List (Option Int)
  | st, [] => (st, [])
  | st, p :: ps =>
    let r := step st p
    let q := feed step r.1 ps
    (q.1, r.2 :: q.2)

/-- The classification rule as the specification words it (section 4.3), for
comparison with `printerLoop`: on `-101` the error count goes up, the zero
count is reset, and a report is sent only when the error count reaches 5, which
resets it; on `0` the zero count goes up, the error count is reset, and a report
is sent while the zero count is at most 5; on any other code both counts are
reset and a report is sent only if the code differs from the last status; the
last status is then set to the observed code. A driver failure changes nothing. -/
def simplifiedRule (st : Classifier) : PollOutcome → Classifier × Option Int
  | .driverFailure => (st, none)
  | .status code =>
    if code = -101 then
      if st.errorCount + 1 = 5 then
        ({ errorCount := 0, zeroCount := 0, lastStatus := some code }, some code)
      else
        ({ errorCount := st.errorCount + 1, zeroCount := 0, lastStatus := some code }, none)
    else if code = 0 then
      if st.zeroCount + 1 ≤ 5 then
        ({ errorCount := 0, zeroCount := st.zeroCount + 1, lastStatus := some code }, some code)
      else
        ({ errorCount := 0, zeroCount := st.zeroCount + 1, lastStatus := some code }, none)
    else
      if some code ≠ st.lastStatus then
        ({ errorCount := 0, zeroCount := 0, lastStatus := some code }, some code)
      else
        ({ errorCount := 0, zeroCount := 0, lastStatus := some code }, none)

/-- Consecutive `data` events, each a chunk with the answer of the session
query: the final state and, per chunk, what the handler did. -/
def feedData (kioskId : String) :
    SerialState → List (List Nat × Option String) → SerialState × List DataEffect
  | st, [] => (st, [])
  | st, ev :: evs =>
    let r := onData kioskId st ev.1 ev.2
    let q := feedData kioskId r.1 evs
    (q.1, r.2 :: q.2)

/-! ## Lemmas on the array primitives -/

theorem indexOfFrom_eq (b : Nat) (l : List Nat) (i : Nat) :
    indexOfFrom b l i = if b ∈ l then ((i + l.indexOf b : Nat) : Int) else -1 := by
  induction l generalizing i with
  | nil => simp [indexOfFrom]
  | cons x xs ih =>
    unfold indexOfFrom
    by_cases hx : x = b
    · subst hx
      simp
    · rw [if_neg hx, ih]
      by_cases hb : b ∈ xs
      · simp only [hb, if_true, List.mem_cons, or_true, List.indexOf_cons_ne _ hx]
        congr 1
        omega
      · simp [hb, Ne.symm hx]

theorem arrayIndexOf_of_mem {w : List Nat} {b : Nat} (h : b ∈ w) :
    arrayIndexOf w b = (w.indexOf b : Int) := by
  simp [arrayIndexOf, indexOfFrom_eq, h]

theorem arrayIndexOf_of_not_mem {w : List Nat} {b : Nat} (h : b ∉ w) :
    arrayIndexOf w b = -1 := by
  simp [arrayIndexOf, indexOfFrom_eq, h]

theorem arraySlice_nat (a : List Nat) (s e : Nat) (he : e ≤ a.length) :
    arraySlice a (s : Int) (e : Int) = (a.take e).drop s := by
  unfold arraySlice
  have h1 : ¬ ((s : Int) < 0) := by omega
  have h2 : ¬ ((e : Int) < 0) := by omega
  simp only [h1, h2, if_false]
  rw [List.drop_take]
  by_cases hs : s ≤ a.length
  · have e1 : min (s : Int) (a.length : Int) = (s : Int) := by omega
    have e2 : min (e : Int) (a.length : Int) = (e : Int) := by omega
    rw [e1, e2]
    have e3 : ((e : Int) - (s : Int)).toNat = e - s := by omega
    rw [e3, Int.toNat_ofNat]
  · have e1 : min (s : Int) (a.length : Int) = (a.length : Int) := by omega
    have e2 : min (e : Int) (a.length : Int) = (e : Int) := by omega
    rw [e1, e2, Int.toNat_ofNat]
    have e3 : ((e : Int) - (a.length : Int)).toNat = 0 := by omega
    have e4 : e - s = 0 := by omega
    rw [e3, e4]
    simp

theorem toNat_ofNat_byte (b : Nat) (h : b < 256) : (Char.ofNat b).toNat = b := by
  have hv : b.isValidChar := Or.inl (by omega)
  unfold Char.ofNat
  rw [dif_pos hv]
  simp [Char.ofNatAux, Char.toNat, UInt32.toNat]

theorem fromCharCode_bytes (l : List Nat) (h : ∀ b ∈ l, b < 256) :
    fromCharCode l = String.mk (l.map Char.ofNat) := by
  unfold fromCharCode
  congr 1
  apply List.map_congr_left
  intro b hb
  have := h b hb
  rw [Nat.mod_eq_of_lt (by omega)]

/-- The decoder on a window whose markers are present and in order, with the
markers located by `List.indexOf`. -/
theorem processBuffer_of_ordered (w : List Nat) (h2 : 2 ∈ w) (h3 : 3 ∈ w)
    (h : w.indexOf 2 < w.indexOf 3) :
    processBuffer w =
      String.mk ((fromCharCode (((w.take (w.indexOf 3)).drop (w.indexOf 2 + 2)).filter
        (fun byte => byte != 82 && byte != 95))).data.take 8) := by
  have he : w.indexOf 3 ≤ w.length := List.indexOf_le_length
  have hc : (w.indexOf 2 : Int) ≠ -1 ∧ (w.indexOf 3 : Int) ≠ -1 ∧
      (w.indexOf 2 : Int) < (w.indexOf 3 : Int) := by omega
  have hs : ((w.indexOf 2 : Int) + 2) = ((w.indexOf 2 + 2 : Nat) : Int) := by push_cast; rfl
  unfold processBuffer
  simp only [arrayIndexOf_of_mem h2, arrayIndexOf_of_mem h3]
  rw [if_pos hc, hs, arraySlice_nat _ _ _ he]
  split
  · rfl
  · rename_i hlen
    have hl : (fromCharCode (((w.take (w.indexOf 3)).drop (w.indexOf 2 + 2)).filter
        (fun byte => byte != 82 && byte != 95))).data.length ≤ 8 := by
      exact Nat.le_of_not_gt hlen
    rw [List.take_of_length_le hl]

/-- The decoder on a window without a start marker, without an end marker, or
with the markers out of order. -/
theorem processBuffer_of_miss (w : List Nat)
    (h : 2 ∉ w ∨ 3 ∉ w ∨ ¬ (w.indexOf 2 < w.indexOf 3)) : processBuffer w = "" := by
  unfold processBuffer
  by_cases h2 : 2 ∈ w
  · by_cases h3 : 3 ∈ w
    · have hn : ¬ (w.indexOf 2 < w.indexOf 3) := by
        rcases h with h | h | h
        · exact absurd h2 h
        · exact absurd h3 h
        · exact h
      simp only [arrayIndexOf_of_mem h2, arrayIndexOf_of_mem h3]
      rw [if_neg]
      omega
    · simp [arrayIndexOf_of_not_mem h3]
  · simp [arrayIndexOf_of_not_mem h2]

/-! ## Claims on the frame decoder -/

/-- C1: for every byte window, `processBuffer` returns the empty string (the
no-frame value) whenever the window has no 0x02 byte, or has no 0x03 byte, or
the index of the first 0x02 is not strictly less than the index of the first
0x03. -/
theorem processBuffer_no_frame (w : List Nat)
    (h : 2 ∉ w ∨ 3 ∉ w ∨ ¬ (w.indexOf 2 < w.indexOf 3)) : processBuffer w = "" :=
  processBuffer_of_miss w h

theorem processBuffer_no_frame_witness :
    processBuffer [0x31, 0x32, 0x03, 0x02, 0xFF, 0x41, 0x42, 0x43, 0x44, 0x45, 0x46, 0x47] = "" :=
  processBuffer_no_frame [0x31, 0x32, 0x03, 0x02, 0xFF, 0x41, 0x42, 0x43, 0x44, 0x45, 0x46, 0x47]
    (by decide)

/-- C2: for every byte window in which the first 0x02 (index `s`) comes
strictly before the first 0x03 (index `e`), `processBuffer` returns exactly the
first 8 characters of the string made, one character per byte, of the bytes at
indices `s+2 .. e-1` with 0x52 and 0x5F removed; so the result has at most 8
characters, as many as there are such bytes up to 8, none of them a filler
character; and the example window decodes to "12345678". -/
theorem processBuffer_frame (w : List Nat) (hbytes : ∀ b ∈ w, b < 256)
    (h2 : 2 ∈ w) (h3 : 3 ∈ w) (h : w.indexOf 2 < w.indexOf 3) :
    processBuffer w =
        String.mk (((((w.take (w.indexOf 3)).drop (w.indexOf 2 + 2)).filter
          (fun b => decide (b ≠ 0x52 ∧ b ≠ 0x5F))).map Char.ofNat).take 8) ∧
      (processBuffer w).length ≤ 8 ∧
      (processBuffer w).length =
        min 8 (((w.take (w.indexOf 3)).drop (w.indexOf 2 + 2)).filter
          (fun b => decide (b ≠ 0x52 ∧ b ≠ 0x5F))).length ∧
      (∀ c ∈ (processBuffer w).data, c ≠ Char.ofNat 0x52 ∧ c ≠ Char.ofNat 0x5F) ∧
      processBuffer exampleWindow = "12345678" := by
  have hf : (fun b : Nat => decide (b ≠ 0x52 ∧ b ≠ 0x5F)) =
      (fun byte : Nat => byte != 82 && byte != 95) := by
    funext b
    by_cases h1 : b = 82 <;> by_cases h2 : b = 95 <;> simp [h1, h2]
  have hsub : ∀ b ∈ ((w.take (w.indexOf 3)).drop (w.indexOf 2 + 2)).filter
      (fun byte => byte != 82 && byte != 95), b < 256 ∧ b ≠ 82 ∧ b ≠ 95 := by
    intro b hb
    rw [List.mem_filter] at hb
    refine ⟨hbytes b (List.mem_of_mem_take (List.mem_of_mem_drop hb.1)), ?_⟩
    simpa using hb.2
  have key := processBuffer_of_ordered w h2 h3 h
  rw [fromCharCode_bytes _ (fun b hb => (hsub b hb).1)] at key
  rw [hf, key]
  refine ⟨rfl, ?_, ?_, ?_, by decide⟩
  · simp [String.length, List.length_take]
  · simp [String.length, List.length_take]
  · intro c hc
    have hc1 := List.mem_of_mem_take hc
    rw [List.mem_map] at hc1
    obtain ⟨b, hb, rfl⟩ := hc1
    obtain ⟨hlt, h82, h95⟩ := hsub b hb
    constructor
    · intro hEq
      have := congrArg Char.toNat hEq
      rw [toNat_ofNat_byte b hlt, toNat_ofNat_byte 82 (by omega)] at this
      exact h82 this
    · intro hEq
      have := congrArg Char.toNat hEq
      rw [toNat_ofNat_byte b hlt, toNat_ofNat_byte 95 (by omega)] at this
      exact h95 this

theorem processBuffer_frame_witness :
    processBuffer [0x02, 0xFF, 0x52, 0x31, 0x32, 0x5F, 0x33, 0x03, 0x34, 0x02, 0x35, 0x03] = "123" :=
  (processBuffer_frame [0x02, 0xFF, 0x52, 0x31, 0x32, 0x5F, 0x33, 0x03, 0x34, 0x02, 0x35, 0x03]
    (by decide) (by decide) (by decide) (by decide)).1.trans (by decide)

/-! ## Claims on the serial data handler -/

/-- The data handler on a chunk that brings the buffer to exactly 12 bytes. -/
theorem onData_of_full (kioskId : String) (st : SerialState) (data : List Nat)
    (token : Option String) (hlen : (st.buffer ++ data).length = 12) :
    onData kioskId st data token =
      if some (processBuffer (st.buffer ++ data)) ≠ st.lastCardNumber ∨ hasToken token = false then
        ({ buffer := [], lastCardNumber := some (processBuffer (st.buffer ++ data)) },
          { decoderCalled := true,
            navigation := some { rfCardNo := processBuffer (st.buffer ++ data), kioskId := kioskId } })
      else
        ({ buffer := [], lastCardNumber := st.lastCardNumber },
          { decoderCalled := true, navigation := none }) := by
  have hlen2 : (onDataAppend st data).buffer.length = 12 := hlen
  unfold onData onDataResume
  simp only [hlen2, if_true]
  show (if _ then _ else _) = _
  simp only [onDataAppend]
  by_cases hs : some (processBuffer (st.buffer ++ data)) = st.lastCardNumber
  · cases ht : hasToken token <;> simp [hs, ht]
  · cases ht : hasToken token <;> simp [hs, ht]

/-- The data handler on a chunk that leaves the buffer at another length. -/
theorem onData_of_other_length (kioskId : String) (st : SerialState) (data : List Nat)
    (token : Option String) (hlen : (st.buffer ++ data).length ≠ 12) :
    onData kioskId st data token =
      ({ buffer := st.buffer ++ data, lastCardNumber := st.lastCardNumber },
        { decoderCalled := false, navigation := none }) := by
  have hlen2 : ¬ ((onDataAppend st data).buffer.length = 12) := hlen
  unfold onData onDataResume
  rw [if_neg hlen2]
  rfl

/-- C3, as stated, fails: on the misaligned window
`35 36 37 38 03 02 FF 31 32 33 34 35` (end marker before start marker) the
decoder yields no frame, yet with last-emitted identifier "12345678" and an
active session the handler navigates with an empty `rfCardNo` and overwrites
the last-emitted identifier with the empty string. -/
theorem miss_window_navigates :
    ([0x35, 0x36, 0x37, 0x38, 0x03] ++ [0x02, 0xFF, 0x31, 0x32, 0x33, 0x34, 0x35] : List Nat).length
        = 12 ∧
      ¬ (List.indexOf 2 [0x35, 0x36, 0x37, 0x38, 0x03, 0x02, 0xFF, 0x31, 0x32, 0x33, 0x34, 0x35] <
        List.indexOf 3 [0x35, 0x36, 0x37, 0x38, 0x03, 0x02, 0xFF, 0x31, 0x32, 0x33, 0x34, 0x35]) ∧
      processBuffer [0x35, 0x36, 0x37, 0x38, 0x03, 0x02, 0xFF, 0x31, 0x32, 0x33, 0x34, 0x35] = "" ∧
      ¬ ((onData "K1" { buffer := [0x35, 0x36, 0x37, 0x38, 0x03], lastCardNumber := some "12345678" }
            [0x02, 0xFF, 0x31, 0x32, 0x33, 0x34, 0x35] (some "session")).2.navigation = none ∧
          (onData "K1" { buffer := [0x35, 0x36, 0x37, 0x38, 0x03], lastCardNumber := some "12345678" }
            [0x02, 0xFF, 0x31, 0x32, 0x33, 0x34, 0x35] (some "session")).1.lastCardNumber
              = some "12345678") ∧
      onData "K1" { buffer := [0x35, 0x36, 0x37, 0x38, 0x03], lastCardNumber := some "12345678" }
          [0x02, 0xFF, 0x31, 0x32, 0x33, 0x34, 0x35] (some "session") =
        ({ buffer := [], lastCardNumber := some "" },
          { decoderCalled := true, navigation := some { rfCardNo := "", kioskId := "K1" } }) := by
  decide

/-- C3, amended: on a 12-byte window on which the decoder yields no frame the
handler treats the empty string as the decoded identifier. It navigates with an
empty `rfCardNo`, and sets the last-emitted identifier to the empty string, iff
the last-emitted identifier is not the empty string or no session is active;
only when the last-emitted identifier already is the empty string and a session
is active is the miss dropped, with no navigation and the identifier unchanged.
The buffer is cleared in both cases. -/
theorem onData_miss (kioskId : String) (st : SerialState) (data : List Nat)
    (token : Option String) (hlen : (st.buffer ++ data).length = 12)
    (hmiss : 2 ∉ st.buffer ++ data ∨ 3 ∉ st.buffer ++ data ∨
      ¬ ((st.buffer ++ data).indexOf 2 < (st.buffer ++ data).indexOf 3)) :
    onData kioskId st data token =
      if st.lastCardNumber ≠ some "" ∨ hasToken token = false then
        ({ buffer := [], lastCardNumber := some "" },
          { decoderCalled := true, navigation := some { rfCardNo := "", kioskId := kioskId } })
      else
        ({ buffer := [], lastCardNumber := st.lastCardNumber },
          { decoderCalled := true, navigation := none }) := by
  rw [onData_of_full kioskId st data token hlen, processBuffer_of_miss _ hmiss]
  have hiff : (some "" ≠ st.lastCardNumber ∨ hasToken token = false) ↔
      (st.lastCardNumber ≠ some "" ∨ hasToken token = false) := by
    constructor
    · rintro (h | h)
      · exact Or.inl (fun e => h e.symm)
      · exact Or.inr h
    · rintro (h | h)
      · exact Or.inl (fun e => h e.symm)
      · exact Or.inr h
  simp only [hiff]

theorem onData_miss_witness :
    onData "K1" { buffer := [0x35, 0x36, 0x37, 0x38, 0x03], lastCardNumber := some "" }
        [0x02, 0xFF, 0x31, 0x32, 0x33, 0x34, 0x35] (some "session") =
      ({ buffer := [], lastCardNumber := some "" }, { decoderCalled := true, navigation := none }) :=
  (onData_miss "K1" { buffer := [0x35, 0x36, 0x37, 0x38, 0x03], lastCardNumber := some "" }
    [0x02, 0xFF, 0x31, 0x32, 0x33, 0x34, 0x35] (some "session") (by decide) (by decide)).trans
    (by decide)

/-- The buffer after a handler that no other `data` event interrupts: empty if
the appended length is exactly 12, else the old buffer followed by the chunk. -/
theorem onData_uninterrupted_buffer (kioskId : String) (st : SerialState) (data : List Nat)
    (token : Option String) :
    (onData kioskId st data token).1.buffer =
      if (st.buffer ++ data).length = 12 then [] else st.buffer ++ data := by
  by_cases hlen : (st.buffer ++ data).length = 12
  · rw [onData_of_full kioskId st data token hlen, if_pos hlen]
    split <;> rfl
  · rw [onData_of_other_length kioskId st data token hlen, if_neg hlen]

/-- C9: for every 12-byte window, with `c` the identifier the decoder returns
on it, every last-emitted identifier and every session state, the data handler
emits a navigation, carrying `c` and the kiosk id, iff `c` differs from the
last-emitted identifier or no session is active; the last-emitted identifier
becomes `c` when a navigation is emitted and is unchanged otherwise. -/
theorem onData_emit (kioskId : String) (st : SerialState) (data : List Nat)
    (token : Option String) (hlen : (st.buffer ++ data).length = 12) :
    ((onData kioskId st data token).2.navigation =
          some { rfCardNo := processBuffer (st.buffer ++ data), kioskId := kioskId } ↔
        (some (processBuffer (st.buffer ++ data)) ≠ st.lastCardNumber ∨ hasToken token = false)) ∧
      ((onData kioskId st data token).2.navigation = none ↔
        ¬ (some (processBuffer (st.buffer ++ data)) ≠ st.lastCardNumber ∨ hasToken token = false)) ∧
      ((onData kioskId st data token).2.navigation ≠ none →
        (onData kioskId st data token).1.lastCardNumber =
          some (processBuffer (st.buffer ++ data))) ∧
      ((onData kioskId st data token).2.navigation = none →
        (onData kioskId st data token).1.lastCardNumber = st.lastCardNumber) := by
  rw [onData_of_full kioskId st data token hlen]
  by_cases hc :
      some (processBuffer (st.buffer ++ data)) ≠ st.lastCardNumber ∨ hasToken token = false
  · rw [if_pos hc]
    simp [hc]
  · rw [if_neg hc]
    simp [hc]

theorem onData_emit_witness :
    (onData "K1" { buffer := [0x02, 0xFF, 0x52, 0x31, 0x32], lastCardNumber := some "12345678" }
        [0x33, 0x34, 0x35, 0x36, 0x37, 0x38, 0x03] (some "session")).2.navigation = none ∧
      (onData "K1" { buffer := [0x02, 0xFF, 0x52, 0x31, 0x32], lastCardNumber := some "12345678" }
        [0x33, 0x34, 0x35, 0x36, 0x37, 0x38, 0x03] none).2.navigation =
          some { rfCardNo := "12345678", kioskId := "K1" } :=
  ⟨(onData_emit "K1" { buffer := [0x02, 0xFF, 0x52, 0x31, 0x32], lastCardNumber := some "12345678" }
      [0x33, 0x34, 0x35, 0x36, 0x37, 0x38, 0x03] (some "session") (by decide)).2.1.mpr (by decide),
    (onData_emit "K1" { buffer := [0x02, 0xFF, 0x52, 0x31, 0x32], lastCardNumber := some "12345678" }
      [0x33, 0x34, 0x35, 0x36, 0x37, 0x38, 0x03] none (by decide)).1.mpr (by decide)⟩

/-! ## Claims on the serial link -/

theorem showBanner_eq (s : LinkState) :
    showBanner s = { retryCount := s.retryCount, bannerShown := true } := by
  unfold showBanner
  cases s with
  | mk r b => cases b <;> rfl

theorem retryOpen_eq (s : LinkState) :
    retryOpen s =
      if s.retryCount < MAX_RETRY then
        ({ retryCount := s.retryCount + 1, bannerShown := s.bannerShown }, true)
      else
        ({ retryCount := s.retryCount, bannerShown := true }, false) := by
  unfold retryOpen
  by_cases h : s.retryCount < MAX_RETRY
  · rw [if_neg (by omega), if_pos h]
  · rw [if_pos (by omega), if_neg h, showBanner_eq]

/-- A failed open: the count goes up by one and a retry is scheduled while the
count is below the cap; at the cap nothing changes and nothing is scheduled. -/
theorem onOpen_failed_eq (s : LinkState) :
    onOpen true s =
      if s.retryCount < MAX_RETRY then
        ({ retryCount := s.retryCount + 1, bannerShown := true }, true)
      else
        ({ retryCount := s.retryCount, bannerShown := true }, false) := by
  unfold onOpen
  rw [if_pos rfl, retryOpen_eq, showBanner_eq]

theorem afterFailedOpens_eq (b : Bool) (k : Nat) :
    afterFailedOpens { retryCount := 0, bannerShown := b } (k + 1) =
      { retryCount := min (k + 1) MAX_RETRY, bannerShown := true } := by
  induction k with
  | zero =>
    show (onOpen true { retryCount := 0, bannerShown := b }).1 = _
    rw [onOpen_failed_eq]
    simp [MAX_RETRY]
  | succ k ih =>
    show (onOpen true (afterFailedOpens { retryCount := 0, bannerShown := b } (k + 1))).1 = _
    rw [ih, onOpen_failed_eq]
    by_cases h : k + 1 < MAX_RETRY
    · have h1 : min (k + 1) MAX_RETRY = k + 1 := by omega
      have h2 : min (k + 1 + 1) MAX_RETRY = k + 1 + 1 := by omega
      simp only [h1, h2, h, if_true]
    · have h1 : min (k + 1) MAX_RETRY = MAX_RETRY := by omega
      have h2 : min (k + 1 + 1) MAX_RETRY = MAX_RETRY := by omega
      simp only [h1, h2, lt_irrefl, if_false]

/-- The always-failing run from a count `r` at most the cap: it ends after
`MAX_RETRY + 1 - r` opens, given that much fuel. -/
theorem openAlwaysFailing_eq (fuel : Nat) (s : LinkState) (hs : s.retryCount ≤ MAX_RETRY) :
    openAlwaysFailing fuel s =
      if MAX_RETRY + 1 - s.retryCount ≤ fuel then
        some ({ retryCount := MAX_RETRY, bannerShown := true }, MAX_RETRY + 1 - s.retryCount)
      else none := by
  induction fuel generalizing s with
  | zero =>
    rw [if_neg (by omega)]
    rfl
  | succ fuel ih =>
    unfold openAlwaysFailing
    simp only [onOpen_failed_eq]
    by_cases h : s.retryCount < MAX_RETRY
    · simp only [h, if_true]
      rw [ih _ (by simpa using h)]
      by_cases hf : MAX_RETRY + 1 - s.retryCount ≤ fuel + 1
      · have hf2 : MAX_RETRY + 1 - (s.retryCount + 1) ≤ fuel := by omega
        have he : MAX_RETRY + 1 - (s.retryCount + 1) + 1 = MAX_RETRY + 1 - s.retryCount := by
          omega
        simp only [hf, hf2, if_true, Option.map_some', he]
      · have hf2 : ¬ (MAX_RETRY + 1 - (s.retryCount + 1) ≤ fuel) := by omega
        simp only [hf, hf2, if_false, Option.map_none']
    · have he : s.retryCount = MAX_RETRY := by omega
      have h1 : MAX_RETRY + 1 - s.retryCount = 1 := by omega
      have h2 : (1 : Nat) ≤ fuel + 1 := by omega
      rw [if_neg h, h1, if_pos h2, if_neg (by simp), he]

/-- C4, as stated, fails: after 499 failed opens from the initial state the
500th failed open still schedules a further open, a run of 500 opens has not
ended, and the run ends with 501 opens made. -/
theorem retry_500th_not_terminal :
    (onOpen true (afterFailedOpens initialLink 499)).2 = true ∧
      openAlwaysFailing 500 initialLink = none ∧
      ¬ ((openAlwaysFailing 501 initialLink).map (fun q => q.2) = some 500) := by
  refine ⟨?_, ?_, ?_⟩
  · show (onOpen true (afterFailedOpens { retryCount := 0, bannerShown := false } (498 + 1))).2 = _
    rw [afterFailedOpens_eq, onOpen_failed_eq]
    decide
  · rw [openAlwaysFailing_eq 500 initialLink (by decide)]
    decide
  · rw [openAlwaysFailing_eq 501 initialLink (by decide)]
    decide

/-- C4, amended: in a run that starts with `retryCount = 0` and in which every
open fails, the failed open number `k + 1` schedules a further open iff
`k + 1 ≤ 500`, so the link stops on the 501st consecutive failed open (the
first open and 500 retries); the run ends, exactly 501 opens are made, the
count then stands at 500, and a later call of `retryOpen` schedules nothing
and leaves the state as it is. -/
theorem retry_stops_on_501st (b : Bool) :
    (∀ k, (onOpen true (afterFailedOpens { retryCount := 0, bannerShown := b } k)).2
        = decide (k + 1 ≤ MAX_RETRY)) ∧
      (∀ fuel, openAlwaysFailing fuel { retryCount := 0, bannerShown := b } =
        if 501 ≤ fuel then some ({ retryCount := 500, bannerShown := true }, 501) else none) ∧
      retryOpen { retryCount := 500, bannerShown := true } =
        ({ retryCount := 500, bannerShown := true }, false) := by
  refine ⟨?_, ?_, ?_⟩
  · intro k
    cases k with
    | zero =>
      show (onOpen true { retryCount := 0, bannerShown := b }).2 = _
      rw [onOpen_failed_eq]
      simp [MAX_RETRY]
    | succ k =>
      rw [afterFailedOpens_eq, onOpen_failed_eq]
      by_cases h : k + 1 < MAX_RETRY
      · have h1 : min (k + 1) MAX_RETRY = k + 1 := by omega
        have h2 : k + 1 + 1 ≤ MAX_RETRY := by omega
        simp only [h1, h, if_true, h2, decide_True]
      · have h1 : min (k + 1) MAX_RETRY = MAX_RETRY := by omega
        have h2 : ¬ (k + 1 + 1 ≤ MAX_RETRY) := by omega
        simp only [h1, lt_irrefl, if_false, h2, decide_False]
  · intro fuel
    rw [openAlwaysFailing_eq fuel _ (by simp)]
    rfl
  · rw [retryOpen_eq]
    rfl

theorem linkStep_retryCount (s : LinkState) (ev : LinkEvent) :
    (linkStep s ev).1.retryCount =
      if ev = .openSucceeded then 0
      else if ev.callsRetryOpen ∧ s.retryCount < MAX_RETRY then s.retryCount + 1
      else s.retryCount := by
  cases ev with
  | openSucceeded => rfl
  | openFailed =>
    show (onOpen true s).1.retryCount = _
    rw [onOpen_failed_eq]
    by_cases h : s.retryCount < MAX_RETRY <;> simp [h, LinkEvent.callsRetryOpen]
  | closed =>
    show (retryOpen (showBanner s)).1.retryCount = _
    rw [retryOpen_eq, showBanner_eq]
    by_cases h : s.retryCount < MAX_RETRY <;> simp [h, LinkEvent.callsRetryOpen]
  | error isOpen =>
    show (onError isOpen s).1.retryCount = _
    unfold onError
    cases isOpen
    · simp only [Bool.not_false, if_true]
      rw [retryOpen_eq, showBanner_eq]
      by_cases h : s.retryCount < MAX_RETRY <;> simp [h, LinkEvent.callsRetryOpen]
    · simp [showBanner_eq, LinkEvent.callsRetryOpen]

theorem linkRun_retryCount (evs : List LinkEvent) (s : LinkState) (n : Nat)
    (h : s.retryCount = min MAX_RETRY n) :
    (linkRun s evs).retryCount = min MAX_RETRY (failuresSinceOpen n evs) := by
  induction evs generalizing s n with
  | nil => exact h
  | cons ev evs ih =>
    show (linkRun (linkStep s ev).1 evs).retryCount = min MAX_RETRY (failuresSinceOpen _ evs)
    apply ih
    show _ = min MAX_RETRY
      (if ev = .openSucceeded then 0 else if ev.callsRetryOpen then n + 1 else n)
    rw [linkStep_retryCount]
    by_cases h0 : ev = .openSucceeded
    · rw [if_pos h0, if_pos h0]
      exact (Nat.min_zero _).symm
    · rw [if_neg h0, if_neg h0]
      by_cases h1 : ev.callsRetryOpen = true
      · rw [if_pos h1]
        by_cases h2 : s.retryCount < MAX_RETRY
        · rw [if_pos ⟨h1, h2⟩]
          omega
        · rw [if_neg (fun hc => h2 hc.2)]
          omega
      · rw [if_neg h1, if_neg (fun hc => h1 hc.1)]
        exact h

/-- C10: in every state reached from the initial link state by any sequence of
open-success, open-failure, close and error events, `retryCount` is at most
`MAX_RETRY` (500) and equals the number of failures handled by `retryOpen`
since the last successful open, capped at 500; a successful open sets it to 0,
and `retryOpen` at a count below 500 raises it by exactly 1. -/
theorem retryCount_bounded (evs : List LinkEvent) :
    (linkRun initialLink evs).retryCount ≤ MAX_RETRY ∧
      MAX_RETRY = 500 ∧
      (linkRun initialLink evs).retryCount = min 500 (failuresSinceOpen 0 evs) ∧
      (∀ s : LinkState, (onOpen false s).1.retryCount = 0) ∧
      (∀ s : LinkState, s.retryCount < 500 →
        (retryOpen s).1.retryCount = s.retryCount + 1) := by
  have key := linkRun_retryCount evs initialLink 0 (by decide)
  refine ⟨?_, rfl, key, fun s => rfl, ?_⟩
  · rw [key]
    exact Nat.min_le_left _ _
  · intro s hs
    have hs2 : s.retryCount < MAX_RETRY := hs
    rw [retryOpen_eq, if_pos hs2]

theorem retryCount_bounded_witness :
    (retryOpen { retryCount := 499, bannerShown := true }).1.retryCount = 499 + 1 :=
  (retryCount_bounded [.openFailed, .closed, .openSucceeded, .error false]).2.2.2.2
    { retryCount := 499, bannerShown := true } (by decide)

/-! ## Claims on the printer status classifier -/

theorem feed_cons (step : Classifier → PollOutcome → Classifier × Option Int)
    (st : Classifier) (p : PollOutcome) (ps : List PollOutcome) :
    feed step st (p :: ps) =
      ((feed step (step st p).1 ps).1, (step st p).2 :: (feed step (step st p).1 ps).2) :=
  rfl

/-- One cycle observing `-101`, either variant. -/
theorem printerLoop_error (st : Classifier) :
    printerLoop st (.status (-101)) =
        (if st.errorCount + 1 ≥ 5 then
          ({ errorCount := 0, zeroCount := 0, lastStatus := some (-101) }, some (-101))
        else
          ({ errorCount := st.errorCount + 1, zeroCount := 0, lastStatus := some (-101) }, none)) ∧
      printerLoopDev st (.status (-101)) = printerLoop st (.status (-101)) :=
  ⟨rfl, rfl⟩

/-- One cycle observing `0`, production variant. -/
theorem printerLoop_zero (st : Classifier) :
    printerLoop st (.status 0) =
      (if some (0 : Int) ≠ st.lastStatus ∨ st.zeroCount + 1 ≤ 5 then
        ({ errorCount := 0, zeroCount := st.zeroCount + 1, lastStatus := some 0 }, some 0)
      else
        ({ errorCount := 0, zeroCount := st.zeroCount + 1, lastStatus := some 0 }, none)) :=
  rfl

/-- One cycle observing `0`, development variant. -/
theorem printerLoopDev_zero (st : Classifier) :
    printerLoopDev st (.status 0) =
      (if st.zeroCount + 1 ≤ 5 then
        ({ errorCount := 0, zeroCount := st.zeroCount + 1, lastStatus := some 0 }, some 0)
      else
        ({ errorCount := 0, zeroCount := st.zeroCount + 1, lastStatus := some 0 }, none)) := by
  show (if some (0 : Int) ≠ st.lastStatus ∨ st.zeroCount + 1 ≤ 5 then
      (if st.zeroCount + 1 ≤ 5 then _ else _) else _) = _
  by_cases h : st.zeroCount + 1 ≤ 5
  · rw [if_pos (Or.inr h), if_pos h]
  · rw [if_neg h]
    split <;> rfl

/-- One cycle observing a code other than `0` and `-101`, either variant. -/
theorem printerLoop_other (st : Classifier) (c : Int) (h0 : c ≠ 0) (h1 : c ≠ -101) :
    printerLoop st (.status c) =
        (if some c ≠ st.lastStatus then
          ({ errorCount := 0, zeroCount := 0, lastStatus := some c }, some c)
        else
          ({ errorCount := 0, zeroCount := 0, lastStatus := some c }, none)) ∧
      printerLoopDev st (.status c) = printerLoop st (.status c) := by
  constructor
  · show (if c = -101 then _ else if c = 0 then _ else _) = _
    rw [if_neg h1, if_neg h0]
  · show (if c = -101 then _ else if c = 0 then _ else _) =
      (if c = -101 then _ else if c = 0 then _ else _)
    rw [if_neg h1, if_neg h0, if_neg h1, if_neg h0]

/-- Reports of `n` consecutive `-101` samples from an error count `e < 5`:
sample `i + 1` reports iff `e + i + 1` is a multiple of 5. -/
theorem feed_error (step : Classifier → PollOutcome → Classifier × Option Int)
    (hstep : ∀ st, step st (.status (-101)) = printerLoop st (.status (-101)))
    (n : Nat) (st : Classifier) (he : st.errorCount < 5) :
    (feed step st (List.replicate n (.status (-101)))).2 =
      (List.range n).map (fun i =>
        if (st.errorCount + i + 1) % 5 = 0 then some (-101 : Int) else none) := by
  induction n generalizing st with
  | zero => rfl
  | succ n ih =>
    rw [List.replicate_succ, feed_cons, hstep, (printerLoop_error st).1, List.range_succ_eq_map,
      List.map_cons, List.map_map]
    by_cases h4 : st.errorCount + 1 ≥ 5
    · have e4 : st.errorCount = 4 := by omega
      rw [if_pos h4, ih _ (by decide)]
      simp only [e4]
      refine congrArg₂ List.cons (by decide) ?_
      apply List.map_congr_left
      intro i _
      have : (0 + i + 1) % 5 = (4 + (i + 1) + 1) % 5 := by omega
      simp only [Function.comp, this, Nat.succ_eq_add_one]
    · rw [if_neg h4, ih _ (by show st.errorCount + 1 < 5; omega)]
      refine congrArg₂ List.cons ?_ ?_
      · have : ¬ ((st.errorCount + 0 + 1) % 5 = 0) := by omega
        rw [if_neg this]
      · apply List.map_congr_left
        intro i _
        have : (st.errorCount + 1 + i + 1) % 5 = (st.errorCount + (i + 1) + 1) % 5 := by omega
        simp only [Function.comp, this, Nat.succ_eq_add_one]

/-- Reports of `n` consecutive `0` samples from a zero count `z`, when the
step reports a zero sample iff the count it reaches is at most 5, on the states
whose last status is `0` or whose zero count is below 5. -/
theorem feed_zero (step : Classifier → PollOutcome → Classifier × Option Int)
    (hstep : ∀ st : Classifier, (st.lastStatus = some 0 ∨ st.zeroCount < 5) →
      step st (.status 0) =
        (if st.zeroCount + 1 ≤ 5 then
          ({ errorCount := 0, zeroCount := st.zeroCount + 1, lastStatus := some 0 }, some 0)
        else
          ({ errorCount := 0, zeroCount := st.zeroCount + 1, lastStatus := some 0 }, none)))
    (n : Nat) (st : Classifier) (hinv : st.lastStatus = some 0 ∨ st.zeroCount < 5) :
    (feed step st (List.replicate n (.status 0))).2 =
      (List.range n).map (fun i => if st.zeroCount + i < 5 then some (0 : Int) else none) := by
  induction n generalizing st with
  | zero => rfl
  | succ n ih =>
    rw [List.replicate_succ, feed_cons, hstep st hinv, List.range_succ_eq_map, List.map_cons,
      List.map_map]
    have hz : (if st.zeroCount + 1 ≤ 5 then
          (({ errorCount := 0, zeroCount := st.zeroCount + 1, lastStatus := some 0 } : Classifier),
            some (0 : Int))
        else
          ({ errorCount := 0, zeroCount := st.zeroCount + 1, lastStatus := some 0 }, none)) =
        ({ errorCount := 0, zeroCount := st.zeroCount + 1, lastStatus := some 0 },
          if st.zeroCount + 0 < 5 then some (0 : Int) else none) := by
      by_cases h : st.zeroCount + 1 ≤ 5
      · rw [if_pos h, if_pos (by omega)]
      · rw [if_neg h, if_neg (by omega)]
    rw [hz, ih _ (Or.inl rfl)]
    refine congrArg₂ List.cons rfl ?_
    apply List.map_congr_left
    intro i _
    have : st.zeroCount + 1 + i = st.zeroCount + (i + 1) := by omega
    simp only [Function.comp, this, Nat.succ_eq_add_one]

theorem printerLoop_zero_of_inv (st : Classifier)
    (hinv : st.lastStatus = some 0 ∨ st.zeroCount < 5) :
    printerLoop st (.status 0) =
      (if st.zeroCount + 1 ≤ 5 then
        ({ errorCount := 0, zeroCount := st.zeroCount + 1, lastStatus := some 0 }, some 0)
      else
        ({ errorCount := 0, zeroCount := st.zeroCount + 1, lastStatus := some 0 }, none)) := by
  rw [printerLoop_zero]
  by_cases h : st.zeroCount + 1 ≤ 5
  · rw [if_pos (Or.inr h), if_pos h]
  · have hl : st.lastStatus = some 0 := by
      rcases hinv with hl | hl
      · exact hl
      · omega
    rw [if_neg h, if_neg]
    rintro (hc | hc)
    · exact hc hl.symm
    · exact h hc

/-- C5: for every classifier state with `errorCount = 0` (any `zeroCount`, any
`lastStatus`), five consecutive `-101` samples yield exactly one report, on the
5th sample and carrying `-101`, and leave `errorCount = 0` and `zeroCount = 0`;
`n` consecutive `-101` samples yield reports exactly on the samples whose
number is a multiple of 5. Both variants of `printerLoop`. -/
theorem error_hysteresis (st : Classifier) (he : st.errorCount = 0) :
    feed printerLoop st (List.replicate 5 (.status (-101))) =
        ({ errorCount := 0, zeroCount := 0, lastStatus := some (-101) },
          [none, none, none, none, some (-101)]) ∧
      feed printerLoopDev st (List.replicate 5 (.status (-101))) =
        ({ errorCount := 0, zeroCount := 0, lastStatus := some (-101) },
          [none, none, none, none, some (-101)]) ∧
      (∀ n, (feed printerLoop st (List.replicate n (.status (-101)))).2 =
        (List.range n).map (fun i => if (i + 1) % 5 = 0 then some (-101 : Int) else none)) ∧
      (∀ n, (feed printerLoopDev st (List.replicate n (.status (-101)))).2 =
        (List.range n).map (fun i => if (i + 1) % 5 = 0 then some (-101 : Int) else none)) := by
  have hshape : ∀ n, (List.range n).map (fun i =>
        if (st.errorCount + i + 1) % 5 = 0 then some (-101 : Int) else none) =
      (List.range n).map (fun i => if (i + 1) % 5 = 0 then some (-101 : Int) else none) := by
    intro n
    rw [he]
    simp only [Nat.zero_add]
  refine ⟨?_, ?_, ?_, ?_⟩
  · cases st with
    | mk e z l =>
      simp only at he
      subst he
      rfl
  · cases st with
    | mk e z l =>
      simp only at he
      subst he
      rfl
  · intro n
    rw [feed_error printerLoop (fun _ => rfl) n st (by omega), hshape]
  · intro n
    rw [feed_error printerLoopDev (fun _ => rfl) n st (by omega), hshape]

theorem error_hysteresis_witness :
    feed printerLoop { errorCount := 0, zeroCount := 3, lastStatus := some 0 }
        (List.replicate 5 (.status (-101))) =
      ({ errorCount := 0, zeroCount := 0, lastStatus := some (-101) },
        [none, none, none, none, some (-101)]) :=
  (error_hysteresis { errorCount := 0, zeroCount := 3, lastStatus := some 0 } rfl).1

/-- C6: for every classifier state with `zeroCount = 0` (in particular when
`lastStatus` differs from `0`), `n` consecutive `0` samples yield a report on
exactly the samples `1 .. min n 5` and on no later sample; for `n = 7` these are
five reports, on samples 1 to 5, and none on samples 6 and 7. Both variants of
`printerLoop`. -/
theorem zero_hysteresis (st : Classifier) (hz : st.zeroCount = 0) :
    (∀ n, (feed printerLoop st (List.replicate n (.status 0))).2 =
        (List.range n).map (fun i => if i + 1 ≤ 5 then some (0 : Int) else none)) ∧
      (∀ n, (feed printerLoopDev st (List.replicate n (.status 0))).2 =
        (List.range n).map (fun i => if i + 1 ≤ 5 then some (0 : Int) else none)) ∧
      (feed printerLoop st (List.replicate 7 (.status 0))).2 =
        [some 0, some 0, some 0, some 0, some 0, none, none] ∧
      (feed printerLoopDev st (List.replicate 7 (.status 0))).2 =
        [some 0, some 0, some 0, some 0, some 0, none, none] := by
  have hshape : ∀ n, (List.range n).map (fun i =>
        if st.zeroCount + i < 5 then some (0 : Int) else none) =
      (List.range n).map (fun i => if i + 1 ≤ 5 then some (0 : Int) else none) := by
    intro n
    rw [hz]
    apply List.map_congr_left
    intro i _
    by_cases h : i + 1 ≤ 5
    · rw [if_pos h, if_pos (by omega)]
    · rw [if_neg h, if_neg (by omega)]
  have hprod : ∀ n, (feed printerLoop st (List.replicate n (.status 0))).2 =
      (List.range n).map (fun i => if i + 1 ≤ 5 then some (0 : Int) else none) := by
    intro n
    rw [feed_zero printerLoop printerLoop_zero_of_inv n st (Or.inr (by omega)), hshape]
  have hdev : ∀ n, (feed printerLoopDev st (List.replicate n (.status 0))).2 =
      (List.range n).map (fun i => if i + 1 ≤ 5 then some (0 : Int) else none) := by
    intro n
    rw [feed_zero printerLoopDev (fun s _ => printerLoopDev_zero s) n st (Or.inr (by omega)),
      hshape]
  refine ⟨hprod, hdev, ?_, ?_⟩
  · rw [hprod 7]
    rfl
  · rw [hdev 7]
    rfl

theorem zero_hysteresis_witness :
    (feed printerLoop { errorCount := 2, zeroCount := 0, lastStatus := some 5 }
        (List.replicate 7 (.status 0))).2 =
      [some 0, some 0, some 0, some 0, some 0, none, none] :=
  (zero_hysteresis { errorCount := 2, zeroCount := 0, lastStatus := some 5 } rfl).2.2.1

/-- C7: for every status code `c` other than `0` and `-101` and every
classifier state, one `printerLoop` cycle observing `c` sends a report, carrying
`c`, iff `c` differs from `lastStatus`, and leaves `errorCount = 0`,
`zeroCount = 0` and `lastStatus = c`; `lastStatus` is set to the observed code
by every cycle that observes one, reported or not; code `5` observed after a
`lastStatus` of `0` gives one report with `5`, and a repeated `5` gives none. -/
theorem other_code_reported_on_change (st : Classifier) (c : Int) (h0 : c ≠ 0)
    (h1 : c ≠ -101) :
    ((printerLoop st (.status c)).2 = some c ↔ some c ≠ st.lastStatus) ∧
      ((printerLoop st (.status c)).2 = none ↔ some c = st.lastStatus) ∧
      (printerLoop st (.status c)).1 =
        { errorCount := 0, zeroCount := 0, lastStatus := some c } ∧
      (∀ (s : Classifier) (d : Int), (printerLoop s (.status d)).1.lastStatus = some d) ∧
      (∀ e z : Nat,
        feed printerLoop { errorCount := e, zeroCount := z, lastStatus := some 0 }
            [.status 5, .status 5] =
          ({ errorCount := 0, zeroCount := 0, lastStatus := some 5 }, [some 5, none])) := by
  have key := (printerLoop_other st c h0 h1).1
  refine ⟨?_, ?_, ?_, ?_, ?_⟩
  · rw [key]
    by_cases h : some c = st.lastStatus
    · rw [if_neg (not_not.mpr h)]
      exact ⟨fun hh => absurd hh (by simp), fun hh => absurd h hh⟩
    · rw [if_pos h]
      exact ⟨fun _ => h, fun _ => rfl⟩
  · rw [key]
    by_cases h : some c = st.lastStatus
    · rw [if_neg (not_not.mpr h)]
      exact ⟨fun _ => h, fun _ => rfl⟩
    · rw [if_pos h]
      exact ⟨fun hh => absurd hh (by simp), fun hh => absurd hh h⟩
  · rw [key]
    split <;> rfl
  · intro s d
    show (if d = -101 then _ else if d = 0 then _ else _ : Classifier × Option Int).1.lastStatus = _
    dsimp only
    split_ifs <;> rfl
  · intro e z
    rfl

theorem other_code_reported_on_change_witness :
    (printerLoop { errorCount := 1, zeroCount := 6, lastStatus := some 0 } (.status 5)).2 =
      some 5 :=
  (other_code_reported_on_change { errorCount := 1, zeroCount := 6, lastStatus := some 0 } 5
    (by decide) (by decide)).1.mpr (by decide)

/-! ## Production and development classifier on reachable states -/

/-- On a state whose zero count is 0 or whose last status is 0, both variants
of `printerLoop` do the same. -/
theorem printerLoopDev_eq (st : Classifier)
    (hinv : st.zeroCount = 0 ∨ st.lastStatus = some 0) (p : PollOutcome) :
    printerLoopDev st p = printerLoop st p := by
  cases p with
  | driverFailure => rfl
  | status c =>
    by_cases h1 : c = -101
    · subst h1
      rfl
    · by_cases h0 : c = 0
      · subst h0
        have hz : st.lastStatus = some 0 ∨ st.zeroCount < 5 := by
          rcases hinv with h | h
          · exact Or.inr (by omega)
          · exact Or.inl h
        rw [printerLoopDev_zero, printerLoop_zero_of_inv st hz]
      · exact (printerLoop_other st c h0 h1).2

/-- On such a state with an error count below 5, `printerLoop` follows the rule
of the specification. -/
theorem simplifiedRule_eq (st : Classifier) (he : st.errorCount < 5)
    (hinv : st.zeroCount = 0 ∨ st.lastStatus = some 0) (p : PollOutcome) :
    simplifiedRule st p = printerLoop st p := by
  cases p with
  | driverFailure => rfl
  | status c =>
    by_cases h1 : c = -101
    · subst h1
      rw [(printerLoop_error st).1]
      show (if st.errorCount + 1 = 5 then _ else _) = _
      by_cases h5 : st.errorCount + 1 = 5
      · rw [if_pos h5, if_pos (by omega)]
      · rw [if_neg h5, if_neg (by omega)]
    · by_cases h0 : c = 0
      · subst h0
        have hz : st.lastStatus = some 0 ∨ st.zeroCount < 5 := by
          rcases hinv with h | h
          · exact Or.inr (by omega)
          · exact Or.inl h
        rw [printerLoop_zero_of_inv st hz]
        rfl
      · rw [(printerLoop_other st c h0 h1).1]
        show (if c = -101 then _ else if c = 0 then _ else _) = _
        rw [if_neg h1, if_neg h0]

/-- One production cycle keeps the error count below 5 and keeps the zero count
at 0 unless the last status is 0. -/
theorem printerLoop_inv (st : Classifier) (he : st.errorCount < 5)
    (hinv : st.zeroCount = 0 ∨ st.lastStatus = some 0) (p : PollOutcome) :
    (printerLoop st p).1.errorCount < 5 ∧
      ((printerLoop st p).1.zeroCount = 0 ∨ (printerLoop st p).1.lastStatus = some 0) := by
  cases p with
  | driverFailure => exact ⟨he, hinv⟩
  | status c =>
    by_cases h1 : c = -101
    · subst h1
      rw [(printerLoop_error st).1]
      by_cases h5 : st.errorCount + 1 ≥ 5
      · rw [if_pos h5]
        exact ⟨by decide, Or.inl rfl⟩
      · rw [if_neg h5]
        exact ⟨by show st.errorCount + 1 < 5; omega, Or.inl rfl⟩
    · by_cases h0 : c = 0
      · subst h0
        rw [printerLoop_zero]
        split
        · exact ⟨Nat.zero_lt_succ 4, Or.inr rfl⟩
        · exact ⟨Nat.zero_lt_succ 4, Or.inr rfl⟩
      · rw [(printerLoop_other st c h0 h1).1]
        split
        · exact ⟨Nat.zero_lt_succ 4, Or.inl rfl⟩
        · exact ⟨Nat.zero_lt_succ 4, Or.inl rfl⟩

/-- From a state that satisfies the invariant, the three rules give the same
reports and the same final state on every sequence of poll outcomes, and the
final state satisfies the invariant. -/
theorem feed_agree (polls : List PollOutcome) (st : Classifier) (he : st.errorCount < 5)
    (hinv : st.zeroCount = 0 ∨ st.lastStatus = some 0) :
    feed printerLoopDev st polls = feed printerLoop st polls ∧
      feed simplifiedRule st polls = feed printerLoop st polls ∧
      (feed printerLoop st polls).1.errorCount < 5 ∧
      ((feed printerLoop st polls).1.zeroCount = 0 ∨
        (feed printerLoop st polls).1.lastStatus = some 0) := by
  induction polls generalizing st with
  | nil => exact ⟨rfl, rfl, he, hinv⟩
  | cons p ps ih =>
    have hstep := printerLoop_inv st he hinv p
    have h := ih (printerLoop st p).1 hstep.1 hstep.2
    rw [feed_cons printerLoopDev, feed_cons simplifiedRule, feed_cons printerLoop,
      printerLoopDev_eq st hinv p, simplifiedRule_eq st he hinv p, h.1, h.2.1]
    exact ⟨rfl, rfl, h.2.2.1, h.2.2.2⟩

/-- C11: for every sequence of printer poll outcomes (status codes or driver
failures) from the initial classifier state, the production `printerLoop`, whose
zero branch reports when `status !== lastStatus || zeroCount <= 5`, sends the
same reports on the same samples and reaches the same state as the development
variant with its inner check `zeroCount <= 5`, and as the rule "report while
`zeroCount <= 5`" of the specification; on every state so reached the zero
branch's guard holds iff `zeroCount + 1 <= 5`. -/
theorem zero_guard_redundant (polls : List PollOutcome) :
    feed printerLoop initialClassifier polls = feed printerLoopDev initialClassifier polls ∧
      feed printerLoop initialClassifier polls = feed simplifiedRule initialClassifier polls ∧
      ((some (0 : Int) ≠ (feed printerLoop initialClassifier polls).1.lastStatus ∨
          (feed printerLoop initialClassifier polls).1.zeroCount + 1 ≤ 5) ↔
        (feed printerLoop initialClassifier polls).1.zeroCount + 1 ≤ 5) := by
  have h := feed_agree polls initialClassifier (by decide) (Or.inl rfl)
  refine ⟨h.1.symm, h.2.1.symm, ?_⟩
  constructor
  · rintro (hl | hz)
    · rcases h.2.2.2 with h0 | h0
      · omega
      · exact absurd h0.symm hl
    · exact hz
  · exact Or.inr

/-- Off the reachable states the two variants differ: with a zero count of 5
and a last status of 5 the production variant reports a zero sample and the
development variant does not. -/
theorem variants_differ_off_reachable :
    (printerLoop { errorCount := 0, zeroCount := 5, lastStatus := some 5 } (.status 0)).2 = some 0 ∧
      (printerLoopDev { errorCount := 0, zeroCount := 5, lastStatus := some 5 } (.status 0)).2
        = none := by
  decide

/-! ## Buffer overshoot -/

theorem feedData_cons (kioskId : String) (st : SerialState) (ev : List Nat × Option String)
    (evs : List (List Nat × Option String)) :
    feedData kioskId st (ev :: evs) =
      ((feedData kioskId (onData kioskId st ev.1 ev.2).1 evs).1,
        (onData kioskId st ev.1 ev.2).2 :: (feedData kioskId (onData kioskId st ev.1 ev.2).1 evs).2) :=
  rfl

/-- From a buffer longer than 12 bytes every chunk is only appended: the
handler neither decodes nor navigates, and the last-emitted identifier stays. -/
theorem feedData_of_long (kioskId : String) (evs : List (List Nat × Option String))
    (st : SerialState) (h : 12 < st.buffer.length) :
    feedData kioskId st evs =
      ({ buffer := st.buffer ++ (evs.map Prod.fst).flatten, lastCardNumber := st.lastCardNumber },
        List.replicate evs.length { decoderCalled := false, navigation := none }) := by
  induction evs generalizing st with
  | nil =>
    cases st with
    | mk b l => simp [feedData]
  | cons ev evs ih =>
    have hne : (st.buffer ++ ev.1).length ≠ 12 := by
      rw [List.length_append]
      omega
    have hlong : 12 < (st.buffer ++ ev.1).length := by
      rw [List.length_append]
      omega
    rw [feedData_cons, onData_of_other_length kioskId st ev.1 ev.2 hne]
    rw [ih { buffer := st.buffer ++ ev.1, lastCardNumber := st.lastCardNumber } hlong]
    simp only [List.map_cons, List.flatten_cons, List.append_assoc, List.length_cons,
      List.replicate_succ]

/-- C12: if appending an inbound chunk brings the accumulation buffer to a
length above 12 (for example 7 bytes followed by a 7-byte chunk), the handler
only stores the appended bytes, and for every subsequent sequence of chunks the
buffer is the stored bytes followed by all later chunks, so it is never cleared
and its length stays strictly above 12; the decoder is not invoked, no
navigation is emitted and the last-emitted identifier does not change. -/
theorem overshoot_is_permanent (kioskId : String) (st : SerialState) (data : List Nat)
    (token : Option String) (hover : 12 < (st.buffer ++ data).length)
    (later : List (List Nat × Option String)) :
    onData kioskId st data token =
        ({ buffer := st.buffer ++ data, lastCardNumber := st.lastCardNumber },
          { decoderCalled := false, navigation := none }) ∧
      (feedData kioskId (onData kioskId st data token).1 later).1.buffer =
        st.buffer ++ data ++ (later.map Prod.fst).flatten ∧
      12 < (feedData kioskId (onData kioskId st data token).1 later).1.buffer.length ∧
      (feedData kioskId (onData kioskId st data token).1 later).1.lastCardNumber =
        st.lastCardNumber ∧
      (feedData kioskId (onData kioskId st data token).1 later).2.length = later.length ∧
      (∀ e ∈ (feedData kioskId (onData kioskId st data token).1 later).2,
        e.decoderCalled = false ∧ e.navigation = none) := by
  have hne : (st.buffer ++ data).length ≠ 12 := by omega
  have hfirst := onData_of_other_length kioskId st data token hne
  rw [hfirst]
  rw [feedData_of_long kioskId later
    { buffer := st.buffer ++ data, lastCardNumber := st.lastCardNumber } hover]
  refine ⟨rfl, rfl, ?_, rfl, ?_, ?_⟩
  · show 12 < (st.buffer ++ data ++ (later.map Prod.fst).flatten).length
    rw [List.length_append]
    omega
  · exact List.length_replicate _ _
  · intro e he
    rw [List.eq_of_mem_replicate he]
    exact ⟨rfl, rfl⟩

theorem overshoot_is_permanent_witness :
    12 < (feedData "K1"
        (onData "K1" { buffer := [0x02, 0xFF, 0x31, 0x32, 0x33, 0x34, 0x35], lastCardNumber := none }
          [0x36, 0x37, 0x38, 0x03, 0x02, 0xFF, 0x31] none).1
        [([0x32, 0x33, 0x34, 0x35, 0x36], none),
          ([0x02, 0xFF, 0x52, 0x31, 0x32, 0x33, 0x34, 0x35, 0x36, 0x37, 0x38, 0x03], none)]).1.buffer.length :=
  (overshoot_is_permanent "K1"
    { buffer := [0x02, 0xFF, 0x31, 0x32, 0x33, 0x34, 0x35], lastCardNumber := none }
    [0x36, 0x37, 0x38, 0x03, 0x02, 0xFF, 0x31] none (by decide)
    [([0x32, 0x33, 0x34, 0x35, 0x36], none),
      ([0x02, 0xFF, 0x52, 0x31, 0x32, 0x33, 0x34, 0x35, 0x36, 0x37, 0x38, 0x03], none)]).2.2.1

/-! ## The data handler and its `await` -/

/-- The handler after its `await`, on a buffer whose length is not 12. -/
theorem onDataResume_of_other_length (kioskId : String) (st : SerialState)
    (token : Option String) (hlen : st.buffer.length ≠ 12) :
    onDataResume kioskId st token = (st, { decoderCalled := false, navigation := none }) := by
  unfold onDataResume
  rw [if_neg hlen]

/-- The handler after its `await` is the uninterrupted handler on an empty
chunk, so what is proved of `onData` on a 12-byte window holds of the resumed
handler whenever the buffer holds that window. -/
theorem onDataResume_eq_onData (kioskId : String) (st : SerialState) (token : Option String) :
    onDataResume kioskId st token = onData kioskId st [] token := by
  cases st with
  | mk b l =>
    unfold onData onDataAppend
    simp only [List.append_nil]

/-- The buffer after the handler's `await`: cleared iff it holds 12 bytes when
the answer comes. -/
theorem onDataResume_buffer (kioskId : String) (st : SerialState) (token : Option String) :
    (onDataResume kioskId st token).1.buffer = if st.buffer.length = 12 then [] else st.buffer := by
  by_cases hlen : st.buffer.length = 12
  · rw [if_pos hlen]
    unfold onDataResume
    rw [if_pos hlen]
    dsimp only
    split <;> rfl
  · rw [if_neg hlen, onDataResume_of_other_length kioskId st token hlen]

/-- Once the buffer is longer than 12 bytes it stays so under every sequence of
arrivals and resumed handlers, and no resumed handler decodes or navigates. -/
theorem serialRun_of_long (kioskId : String) (evs : List SerialEvent) (st : SerialState)
    (h : 12 < st.buffer.length) :
    12 < (serialRun kioskId st evs).1.buffer.length ∧
      (serialRun kioskId st evs).1.lastCardNumber = st.lastCardNumber ∧
      (∀ e ∈ (serialRun kioskId st evs).2, e.decoderCalled = false ∧ e.navigation = none) := by
  induction evs generalizing st with
  | nil => exact ⟨h, rfl, fun e he => nomatch he⟩
  | cons ev evs ih =>
    cases ev with
    | arrive data =>
      have hlong : 12 < (onDataAppend st data).buffer.length := by
        show 12 < (st.buffer ++ data).length
        rw [List.length_append]
        omega
      exact ih (onDataAppend st data) hlong
    | resume token =>
      have hne : st.buffer.length ≠ 12 := by omega
      have hstep := onDataResume_of_other_length kioskId st token hne
      have hrun : serialRun kioskId st (.resume token :: evs) =
          ((serialRun kioskId st evs).1,
            { decoderCalled := false, navigation := none } :: (serialRun kioskId st evs).2) := by
        show ((serialRun kioskId (onDataResume kioskId st token).1 evs).1,
          (onDataResume kioskId st token).2 ::
            (serialRun kioskId (onDataResume kioskId st token).1 evs).2) = _
        rw [hstep]
      rw [hrun]
      obtain ⟨h1, h2, h3⟩ := ih st h
      refine ⟨h1, h2, ?_⟩
      intro e he
      rcases List.mem_cons.mp he with he | he
      · rw [he]
        exact ⟨rfl, rfl⟩
      · exact h3 e he

/-- C8, as stated, fails when a chunk arrives during the handler's `await`.
The 12-byte example frame arrives into an empty buffer, so the appended length
is exactly 12, and one more byte arrives before the session query answers: the
first handler then finds 13 bytes and leaves them, and so does the second. And
when 8 bytes and then 4 arrive before the first answer, the first handler,
whose appended length was 8, leaves the buffer empty, not the 8 bytes. -/
theorem interleaved_frame_not_cleared :
    schedulable 0 [.arrive exampleWindow, .arrive [0x31], .resume none, .resume none] = true ∧
      (initialSerial.buffer ++ exampleWindow).length = 12 ∧
      ¬ ((serialRun "K1" initialSerial
          [.arrive exampleWindow, .arrive [0x31], .resume none]).1.buffer = []) ∧
      serialRun "K1" initialSerial
          [.arrive exampleWindow, .arrive [0x31], .resume none, .resume none] =
        ({ buffer := exampleWindow ++ [0x31], lastCardNumber := none },
          [{ decoderCalled := false, navigation := none },
            { decoderCalled := false, navigation := none }]) ∧
      schedulable 0 [.arrive (exampleWindow.take 8), .arrive (exampleWindow.drop 8), .resume none]
        = true ∧
      (initialSerial.buffer ++ exampleWindow.take 8).length = 8 ∧
      ¬ ((serialRun "K1" initialSerial
          [.arrive (exampleWindow.take 8), .arrive (exampleWindow.drop 8), .resume none]).1.buffer
            = initialSerial.buffer ++ exampleWindow.take 8) := by
  decide

/-- C8, amended: for every accumulation buffer and every inbound chunk, the
data handler first appends the chunk, so the buffer is exactly the old buffer
followed by the chunk; when the session query has answered, it empties the
buffer iff the buffer then holds exactly 12 bytes, whatever the decoder returns
and whether or not a navigation is emitted, and leaves it unchanged otherwise;
so when no other chunk arrives in between, the buffer after the handler is
empty if the appended length is exactly 12 and otherwise the old buffer
followed by the chunk. -/
theorem buffer_cleared_at_twelve (kioskId : String) (st : SerialState) (data : List Nat)
    (token : Option String) :
    (onDataAppend st data).buffer = st.buffer ++ data ∧
      (onDataAppend st data).lastCardNumber = st.lastCardNumber ∧
      (onDataResume kioskId st token).1.buffer =
        (if st.buffer.length = 12 then [] else st.buffer) ∧
      ((onDataResume kioskId st token).2.decoderCalled = true ↔ st.buffer.length = 12) ∧
      (onData kioskId st data token).1.buffer =
        (if (st.buffer ++ data).length = 12 then [] else st.buffer ++ data) ∧
      onData kioskId st data token = onDataResume kioskId (onDataAppend st data) token := by
  refine ⟨rfl, rfl, onDataResume_buffer kioskId st token, ?_,
    onData_uninterrupted_buffer kioskId st data token, rfl⟩
  by_cases hlen : st.buffer.length = 12
  · unfold onDataResume
    rw [if_pos hlen]
    dsimp only
    split <;> simp [hlen]
  · rw [onDataResume_of_other_length kioskId st token hlen]
    simp [hlen]

end Kiosk
